import Mathlib

/-!
Shallow embedding of the chip-8 interpreter (src/cpu.rs, src/gpu.rs,
src/chip.rs) and verification of its specification.

Modelling conventions:
* Machine integers (u8, u16, usize) are modelled as `Nat`; wrapping
  arithmetic carries an explicit `% 256` / `% 65536` exactly where the
  Rust code wraps (`overflowing_add`, `<<` on u8, `as u16`).
* Rust arrays (`[u8; 4096]`, `[u16; 16]`, `[u8; 16]`) are modelled as
  total functions `Nat → Nat`; the array length appears as an explicit
  bound check wherever the Rust code indexes (a Rust index
  out-of-bounds panic, an integer-underflow panic, or an
  `unimplemented!()` is modelled as the result `none`).
* Fallible operations therefore return `Option`; `none` means the Rust
  program aborts (panics), NOT that it reports an error value --
  the source has no error-result channel at all.
-/

namespace Chip8

/-- Pointwise update of a function modelling a mutable array cell write. -/
def upd (f : Nat → Nat) (a v : Nat) : Nat → Nat :=
  fun b => if b = a then v else f b

/-! ### Opcode field extractors (CpuContext::vx/vy/nnn/nn/n, cpu.rs:34-53) -/

/-- `((opcode & 0x0f00) >> 8) as usize` -/
def vxIdx (opcode : Nat) : Nat := (opcode &&& 0x0f00) >>> 8

/-- `((opcode & 0x00f0) >> 4) as usize` -/
def vyIdx (opcode : Nat) : Nat := (opcode &&& 0x00f0) >>> 4

/-- `opcode & 0x0fff` -/
def nnn (opcode : Nat) : Nat := opcode &&& 0x0fff

/-- `(opcode & 0x00ff) as u8` -/
def nn (opcode : Nat) : Nat := opcode &&& 0x00ff

/-- `(opcode & 0x000f) as u8` -/
def nVal (opcode : Nat) : Nat := opcode &&& 0x000f

/-- `CpuContext::msb`: `(v & 0x80) >> 7` -/
def msb (v : Nat) : Nat := (v &&& 0x80) >>> 7

/-! ### Gpu (gpu.rs) -/

/-- `Gpu` (gpu.rs:3-7): vram is `[u8; 4096]`, modelled as a function. -/
structure Gpu where
  width : Nat
  height : Nat
  vram : Nat → Nat

/-- `Gpu::new` (gpu.rs:11-17). -/
def Gpu.new : Gpu := { width := 64, height := 32, vram := fun _ => 0 }

/-- `Gpu::clear` (gpu.rs:19-23): zeroes every vram cell. -/
def Gpu.clear (g : Gpu) : Gpu := { g with vram := fun _ => 0 }

/-- Whether sprite-row byte `pixel` has its `px`-th bit (MSB first) set:
`(pixel & (0x80 >> px)) != 0x0` (gpu.rs:32). -/
def bitSet (pixel px : Nat) : Bool := pixel &&& (0x80 >>> px) != 0

/-- The linear vram index targeted by sprite bit `(py, px)`:
`x + px + ((y + py) * width)` (gpu.rs:33). No modulo is applied. -/
def target (x y width py px : Nat) : Nat := x + px + (y + py) * width

/-- One iteration of the inner `px` loop of `Gpu::draw_sprite`
(gpu.rs:31-40): if the sprite bit is set, read the targeted vram cell
(indexing `self.vram[addr]`; out of bounds is a panic, i.e. `none`),
record a collision if it was 1, and XOR it with 1. -/
def drawBit (x y width py pixel px : Nat) (st : Gpu × Bool) :
    Option (Gpu × Bool) :=
  if bitSet pixel px then
    let a := target x y width py px
    if a < 4096 then
      some ({ st.1 with vram := upd st.1.vram a (st.1.vram a ^^^ 1) },
            st.2 || (st.1.vram a == 1))
    else none
  else some st

/-- The inner `for px in 0..8` loop of `Gpu::draw_sprite`, processing
bits `px, px+1, ..., px+k-1`. -/
def drawBitsAux (x y width py pixel : Nat) :
    Nat → Nat → Gpu × Bool → Option (Gpu × Bool)
  | _, 0, st => some st
  | px, Nat.succ k, st =>
    match drawBit x y width py pixel px st with
    | none => none
    | some st1 => drawBitsAux x y width py pixel (px + 1) k st1

/-- The outer `for py in 0..len` loop of `Gpu::draw_sprite`
(gpu.rs:29-41), processing rows `py, ..., py+k-1`.  Each row first
reads the sprite byte `memory[(addr + py) as usize]` (memory has 4096
cells; out of bounds is a panic, i.e. `none`). -/
def drawRowsAux (mem : Nat → Nat) (i x y width : Nat) :
    Nat → Nat → Gpu × Bool → Option (Gpu × Bool)
  | _, 0, st => some st
  | py, Nat.succ k, st =>
    if i + py < 4096 then
      match drawBitsAux x y width py (mem (i + py)) 0 8 st with
      | none => none
      | some st1 => drawRowsAux mem i x y width (py + 1) k st1
    else none

/-- `Gpu::draw_sprite` (gpu.rs:25-43). Returns the updated gpu and the
collision flag; `none` models an index-out-of-bounds panic. -/
def Gpu.draw_sprite (g : Gpu) (mem : Nat → Nat) (i len x y : Nat) :
    Option (Gpu × Bool) :=
  drawRowsAux mem i x y g.width 0 len (g, false)

/-! ### Cpu state (cpu.rs:63-73) and context (cpu.rs:27-32) -/

/-- The 80-byte glyph table baked into the boot region (cpu.rs:6-23). -/
def BOOTROM : List Nat :=
  [0xf0, 0x90, 0x90, 0x90, 0xf0,
   0x20, 0x60, 0x20, 0x20, 0x70,
   0xf0, 0x10, 0xf0, 0x80, 0xf0,
   0xf0, 0x10, 0xf0, 0x10, 0xf0,
   0x90, 0x90, 0xf0, 0x10, 0x10,
   0xf0, 0x80, 0xf0, 0x10, 0xf0,
   0xf0, 0x80, 0xf0, 0x90, 0xf0,
   0xf0, 0x10, 0x20, 0x40, 0x40,
   0xf0, 0x90, 0xf0, 0x90, 0xf0,
   0xf0, 0x90, 0xf0, 0x10, 0xf0,
   0xf0, 0x90, 0xf0, 0x90, 0x90,
   0xe0, 0x90, 0xe0, 0x90, 0xe0,
   0xf0, 0x80, 0x80, 0x80, 0xf0,
   0xe0, 0x90, 0x90, 0x90, 0xe0,
   0xf0, 0x80, 0xf0, 0x80, 0xf0,
   0xf0, 0x80, 0xf0, 0x80, 0x80]

/-- `const CARRY: usize = 0x0f` (cpu.rs:25). -/
def CARRY : Nat := 0x0f

/-- `struct Cpu` (cpu.rs:63-73).  `memory : [u8; 4096]`,
`stack : [u16; 16]`, `v : [u8; 16]` are modelled as functions. -/
@[ext] structure Cpu where
  halted : Bool
  memory : Nat → Nat
  stack : Nat → Nat
  v : Nat → Nat
  i : Nat
  pc : Nat
  sp : Nat
  dt : Nat
  st : Nat

/-- `CpuContext` (cpu.rs:27-32).  The two timers enter `Cpu::cycle`
only through `Timer::active()` (a wall-clock gate, timer.rs:24-26),
modelled as the boolean snapshots `stActive`/`dtActive`. -/
structure CpuContext where
  opcode : Nat
  gpu : Gpu
  stActive : Bool
  dtActive : Bool

/-- `Cpu::new` (cpu.rs:77-89). -/
def Cpu.new : Cpu :=
  { halted := false, memory := fun _ => 0, stack := fun _ => 0,
    v := fun _ => 0, i := 0, pc := 0, sp := 0, dt := 0, st := 0 }

/-- `Cpu::addr` (cpu.rs:91-93): `(self.i as usize) & 0x0fff`. -/
def Cpu.addr (c : Cpu) : Nat := c.i &&& 0x0fff

/-- The semantics of `std::io::Write::write` on a `&mut [u8]` slice
destination: copies `min (src length) (destination length)` bytes and
always returns `Ok` -- an oversized source is silently truncated.
Here the destination is `memory[start .. start+dstLen]`. -/
def writeBytes (mem : Nat → Nat) (start dstLen : Nat) (src : List Nat) :
    Nat → Nat :=
  fun b =>
    if start ≤ b ∧ b < start + min src.length dstLen then
      src.getD (b - start) 0
    else mem b

/-- `Cpu::load` (cpu.rs:95-106): writes BOOTROM into
`memory[0..0x1ff]` and the ROM into `memory[0x200..]` via
`Write::write`, which silently truncates and never fails. -/
def Cpu.load (c : Cpu) (code : List Nat) : Cpu :=
  let m1 := writeBytes c.memory 0 0x1ff BOOTROM
  let m2 := writeBytes m1 0x200 (4096 - 0x200) code
  { c with memory := m2 }

/-- `Cpu::reset` (cpu.rs:108-116): zeroes memory (the glyph table is
NOT re-seeded), registers, i, sp, dt, st and sets pc to 0x200.  The
`halted` flag is not touched. -/
def Cpu.reset (c : Cpu) : Cpu :=
  { c with memory := fun _ => 0, v := fun _ => 0, i := 0,
           pc := 0x200, sp := 0, dt := 0, st := 0 }

/-- `Cpu::halt` (cpu.rs:135-138). -/
def Cpu.halt (c : Cpu) : Cpu := { c with halted := true }

/-- `Cpu::step` (cpu.rs:150-155): `pc += n`, then halt if
`pc >= 4096`. -/
def Cpu.step (c : Cpu) (n : Nat) : Cpu :=
  let pc := c.pc + n
  if 4096 ≤ pc then { c with pc := pc, halted := true }
  else { c with pc := pc }

/-- The 16-bit word `(memory[pc] << 8) | memory[pc+1]` read by
`Cpu::fetch` (cpu.rs:157-163), including the final `as u16` cast. -/
def fetchWord (c : Cpu) : Nat :=
  (((c.memory c.pc) <<< 8) ||| c.memory (c.pc + 1)) % 65536

/-- `Cpu::fetch` (cpu.rs:157-163); indexing `memory[pc]` and
`memory[pc+1]` panics (`none`) when out of bounds. -/
def Cpu.fetch (c : Cpu) : Option Nat :=
  if c.pc + 1 < 4096 then some (fetchWord c) else none

/-! ### Instruction handlers (cpu.rs:219-517)

Handlers that can only panic or run infallibly are modelled with their
natural types; `Option` marks the ones that can panic. -/

/-- `Cpu::ld_i_spr` (cpu.rs:222-226): `i := (vx * 5) & 0x0fff`. -/
def Cpu.ld_i_spr (c : Cpu) (ctx : CpuContext) : Cpu :=
  { c with i := (c.v (vxIdx ctx.opcode) * 5) &&& 0x0fff }

/-- `Cpu::ret` (cpu.rs:228-232): `sp -= 1; pc = stack[sp]`.  With
`sp = 0` the `u8` subtraction underflows: a panic in a debug build, and
in a release build the wrapped index 255 overruns the 16-entry stack --
a panic either way, modelled as `none`. -/
def Cpu.ret (c : Cpu) : Option Cpu :=
  if c.sp = 0 then none
  else if c.sp - 1 < 16 then
    some { c with sp := c.sp - 1, pc := c.stack (c.sp - 1) }
  else none

/-- `Cpu::exit` (cpu.rs:234-237). -/
def Cpu.exit (c : Cpu) : Cpu := c.halt

/-- `Cpu::nop` (cpu.rs:239-242): the fallback handler for unmatched
opcodes; advances pc by a further 2. -/
def Cpu.nop (c : Cpu) : Cpu := c.step 2

/-- `Cpu::sys` (cpu.rs:244-246): does nothing. -/
def Cpu.sys (c : Cpu) : Cpu := c

/-- `Cpu::cls` (cpu.rs:249-252). -/
def Cpu.cls (ctx : CpuContext) : CpuContext := { ctx with gpu := ctx.gpu.clear }

/-- `Cpu::call` (cpu.rs:254-259): `stack[sp] = pc; sp += 1;
pc = nnn`.  With `sp >= 16` the stack write overruns the 16-entry
array -- an index-out-of-bounds panic, modelled as `none`. -/
def Cpu.call (c : Cpu) (ctx : CpuContext) : Option Cpu :=
  if c.sp < 16 then
    some { c with stack := upd c.stack c.sp c.pc, sp := c.sp + 1,
                  pc := nnn ctx.opcode }
  else none

/-- `Cpu::jp` (cpu.rs:262-265). -/
def Cpu.jp (c : Cpu) (ctx : CpuContext) : Cpu := { c with pc := nnn ctx.opcode }

/-- `Cpu::se_vx_kk` (cpu.rs:268-275). -/
def Cpu.se_vx_kk (c : Cpu) (ctx : CpuContext) : Cpu :=
  if c.v (vxIdx ctx.opcode) = nn ctx.opcode then c.step 2 else c

/-- `Cpu::ld_vx_kk` (cpu.rs:278-283). -/
def Cpu.ld_vx_kk (c : Cpu) (ctx : CpuContext) : Cpu :=
  { c with v := upd c.v (vxIdx ctx.opcode) (nn ctx.opcode) }

/-- `Cpu::add_vx_kk` (cpu.rs:286-291): `overflowing_add`, result kept,
flag dropped. -/
def Cpu.add_vx_kk (c : Cpu) (ctx : CpuContext) : Cpu :=
  let x := vxIdx ctx.opcode
  { c with v := upd c.v x ((c.v x + nn ctx.opcode) % 256) }

/-- `Cpu::ld_vx_vy` (cpu.rs:294-299). -/
def Cpu.ld_vx_vy (c : Cpu) (ctx : CpuContext) : Cpu :=
  { c with v := upd c.v (vxIdx ctx.opcode) (c.v (vyIdx ctx.opcode)) }

/-- `Cpu::or` (cpu.rs:302-307). -/
def Cpu.or (c : Cpu) (ctx : CpuContext) : Cpu :=
  let x := vxIdx ctx.opcode
  { c with v := upd c.v x (c.v x ||| c.v (vyIdx ctx.opcode)) }

/-- `Cpu::and` (cpu.rs:310-315). -/
def Cpu.and (c : Cpu) (ctx : CpuContext) : Cpu :=
  let x := vxIdx ctx.opcode
  { c with v := upd c.v x (c.v x &&& c.v (vyIdx ctx.opcode)) }

/-- `Cpu::xor` (cpu.rs:318-323). -/
def Cpu.xor (c : Cpu) (ctx : CpuContext) : Cpu :=
  let x := vxIdx ctx.opcode
  { c with v := upd c.v x (c.v x ^^^ c.v (vyIdx ctx.opcode)) }

/-- `Cpu::add_vx_vy` (cpu.rs:329-336): the sum and carry are computed
from the pre-operation values, then `v[CARRY]` is written FIRST and
`v[vx]` second -- so for `vx = 0xF` the wrapped sum overwrites the
carry flag. -/
def Cpu.add_vx_vy (c : Cpu) (ctx : CpuContext) : Cpu :=
  let x := vxIdx ctx.opcode
  let sum := c.v x + c.v (vyIdx ctx.opcode)
  let c1 := { c with v := upd c.v CARRY (if 255 < sum then 1 else 0) }
  { c1 with v := upd c1.v x (sum % 256) }

/-- `Cpu::sub_vx_vy` (cpu.rs:340-347): `overflowing_sub`; the flag is
0 on borrow and 1 otherwise, written before `v[vx]`. -/
def Cpu.sub_vx_vy (c : Cpu) (ctx : CpuContext) : Cpu :=
  let x := vxIdx ctx.opcode
  let a := c.v x
  let b := c.v (vyIdx ctx.opcode)
  let c1 := { c with v := upd c.v CARRY (if a < b then 0 else 1) }
  { c1 with v := upd c1.v x ((a + 256 - b) % 256) }

/-- `Cpu::shr` (cpu.rs:351-356): `v[CARRY] = v[vx] & 1` first, then
`v[vx] = v[vx] >> 1` -- the second line RE-READS `v[vx]`, so for
`vx = 0xF` it shifts the just-written flag. -/
def Cpu.shr (c : Cpu) (ctx : CpuContext) : Cpu :=
  let x := vxIdx ctx.opcode
  let c1 := { c with v := upd c.v CARRY (c.v x &&& 1) }
  { c1 with v := upd c1.v x (c1.v x / 2) }

/-- `Cpu::subn` (cpu.rs:362-369): `vy - vx` into `vx`. -/
def Cpu.subn (c : Cpu) (ctx : CpuContext) : Cpu :=
  let x := vxIdx ctx.opcode
  let a := c.v (vyIdx ctx.opcode)
  let b := c.v x
  let c1 := { c with v := upd c.v CARRY (if a < b then 0 else 1) }
  { c1 with v := upd c1.v x ((a + 256 - b) % 256) }

/-- `Cpu::shl` (cpu.rs:373-378): `v[CARRY] = msb(v[vx])` first, then
`v[vx] = v[vx] << 1` (wrapping u8 shift) -- the second line RE-READS
`v[vx]`. -/
def Cpu.shl (c : Cpu) (ctx : CpuContext) : Cpu :=
  let x := vxIdx ctx.opcode
  let c1 := { c with v := upd c.v CARRY (msb (c.v x)) }
  { c1 with v := upd c1.v x (c1.v x * 2 % 256) }

/-- `Cpu::sne_vx_vy` (cpu.rs:381-388). -/
def Cpu.sne_vx_vy (c : Cpu) (ctx : CpuContext) : Cpu :=
  if c.v (vxIdx ctx.opcode) ≠ c.v (vyIdx ctx.opcode) then c.step 2 else c

/-- `Cpu::se_vx_vy` (cpu.rs:391-398). -/
def Cpu.se_vx_vy (c : Cpu) (ctx : CpuContext) : Cpu :=
  if c.v (vxIdx ctx.opcode) = c.v (vyIdx ctx.opcode) then c.step 2 else c

/-- `Cpu::sne_vx_kk` (cpu.rs:401-408). -/
def Cpu.sne_vx_kk (c : Cpu) (ctx : CpuContext) : Cpu :=
  if c.v (vxIdx ctx.opcode) ≠ nn ctx.opcode then c.step 2 else c

/-- `Cpu::ld` (cpu.rs:411-414): `i := nnn`. -/
def Cpu.ld (c : Cpu) (ctx : CpuContext) : Cpu := { c with i := nnn ctx.opcode }

/-- `Cpu::jp_v0_addr` (cpu.rs:417-422): `pc := nnn + v0`. -/
def Cpu.jp_v0_addr (c : Cpu) (ctx : CpuContext) : Cpu :=
  { c with pc := nnn ctx.opcode + c.v 0 }

/-- `Cpu::rnd` (cpu.rs:426-433), with the thread-local random byte
passed in as the oracle `rnd`. -/
def Cpu.rnd (c : Cpu) (ctx : CpuContext) (rnd : Nat) : Cpu :=
  { c with v := upd c.v (vxIdx ctx.opcode) (rnd &&& nn ctx.opcode) }

/-- `Cpu::drw` (cpu.rs:437-446): draws via `Gpu::draw_sprite` and
stores the collision flag into `v[CARRY]`. -/
def Cpu.drw (c : Cpu) (ctx : CpuContext) : Option (Cpu × CpuContext) :=
  let x := c.v (vxIdx ctx.opcode)
  let y := c.v (vyIdx ctx.opcode)
  match ctx.gpu.draw_sprite c.memory c.i (nVal ctx.opcode) x y with
  | none => none
  | some (g, coll) =>
    some ({ c with v := upd c.v CARRY (if coll then 1 else 0) },
          { ctx with gpu := g })

/-- `Cpu::ld_vx_dt` (cpu.rs:461-465). -/
def Cpu.ld_vx_dt (c : Cpu) (ctx : CpuContext) : Cpu :=
  { c with v := upd c.v (vxIdx ctx.opcode) c.dt }

/-- `Cpu::ld_dt_vx` (cpu.rs:468-472). -/
def Cpu.ld_dt_vx (c : Cpu) (ctx : CpuContext) : Cpu :=
  { c with dt := c.v (vxIdx ctx.opcode) }

/-- `Cpu::ld_st_vx` (cpu.rs:475-479). -/
def Cpu.ld_st_vx (c : Cpu) (ctx : CpuContext) : Cpu :=
  { c with st := c.v (vxIdx ctx.opcode) }

/-- `Cpu::add_i_vx` (cpu.rs:482-486):
`i := (i.saturating_add(vx)) & 0x0fff`. -/
def Cpu.add_i_vx (c : Cpu) (ctx : CpuContext) : Cpu :=
  { c with i := (min (c.i + c.v (vxIdx ctx.opcode)) 0xffff) &&& 0x0fff }

/-- `Cpu::ld_b_vx` (cpu.rs:488-496): BCD store at `memory[i..i+2]`,
using the UNMASKED `self.i`; an index past 4095 panics (`none`). -/
def Cpu.ld_b_vx (c : Cpu) (ctx : CpuContext) : Option Cpu :=
  let val := c.v (vxIdx ctx.opcode)
  let m1 := upd c.memory c.i (val / 100 % 10)
  let m2 := upd m1 (c.i + 1) (val / 10 % 10)
  let m3 := upd m2 (c.i + 2) (val % 10)
  if c.i + 2 < 4096 then some { c with memory := m3 } else none

/-- `Cpu::ld_i_vx` (cpu.rs:499-506):
`memory[addr..].write(&v[0..vx])` -- copies the `vx` registers
`v0 .. v(vx-1)` (NOT `vx+1` registers, contrary to its own doc
comment), truncated to the remaining memory; never fails. -/
def Cpu.ld_i_vx (c : Cpu) (ctx : CpuContext) : Cpu :=
  let x := vxIdx ctx.opcode
  let a := c.addr
  let cnt := min x (4096 - a)
  { c with memory :=
      fun b => if a ≤ b ∧ b < a + cnt then c.v (b - a) else c.memory b }

/-- `Cpu::ld_vx_i` (cpu.rs:509-516):
`(&mut v[0..vx]).write(memory[addr..])` -- fills the `vx` registers
`v0 .. v(vx-1)` (NOT `vx+1`), truncated; never fails. -/
def Cpu.ld_vx_i (c : Cpu) (ctx : CpuContext) : Cpu :=
  let x := vxIdx ctx.opcode
  let a := c.addr
  let cnt := min x (4096 - a)
  { c with v := fun r => if r < cnt then c.memory (a + r) else c.v r }

/-! ### Decode and dispatch (cpu.rs:165-217, 118-133) -/

/-- One constructor per handler that `Cpu::decode` can return. -/
inductive Instr where
  | cls | ret | exit | sys | jp | call | se_vx_kk | sne_vx_kk | se_vx_vy
  | ld_vx_kk | add_vx_kk | ld_vx_vy | or | and | xor | add_vx_vy
  | sub_vx_vy | shr | subn | shl | nop | sne_vx_vy | ld | jp_v0_addr
  | rnd | drw | skp | sknp | ld_vx_dt | ld_dt_vx | ld_st_vx | add_i_vx
  | ld_i_spr | ld_b_vx | ld_i_vx | ld_vx_i
  deriving DecidableEq

/-- `Cpu::decode` (cpu.rs:165-217).  Every unmatched pattern under the
high nibbles 0x8/0xE/0xF falls through to `Cpu::nop`; the only failure
is opcode pattern 0xFx0A, where decode itself runs `unimplemented!()`
and panics (`none`). -/
def Cpu.decode (opcode : Nat) : Option Instr :=
  match opcode &&& 0xf000 with
  | 0x0000 =>
    match opcode with
    | 0x00e0 => some .cls
    | 0x00ee => some .ret
    | 0x00fd => some .exit
    | _ => some .sys
  | 0x1000 => some .jp
  | 0x2000 => some .call
  | 0x3000 => some .se_vx_kk
  | 0x4000 => some .sne_vx_kk
  | 0x5000 => some .se_vx_vy
  | 0x6000 => some .ld_vx_kk
  | 0x7000 => some .add_vx_kk
  | 0x8000 =>
    match opcode &&& 0x000f with
    | 0x0000 => some .ld_vx_vy
    | 0x0001 => some .or
    | 0x0002 => some .and
    | 0x0003 => some .xor
    | 0x0004 => some .add_vx_vy
    | 0x0005 => some .sub_vx_vy
    | 0x0006 => some .shr
    | 0x0007 => some .subn
    | 0x0008 => some .shl
    | _ => some .nop
  | 0x9000 => some .sne_vx_vy
  | 0xa000 => some .ld
  | 0xb000 => some .jp_v0_addr
  | 0xc000 => some .rnd
  | 0xd000 => some .drw
  | 0xe000 =>
    match opcode &&& 0x00ff with
    | 0x009e => some .skp
    | 0x00a1 => some .sknp
    | _ => some .nop
  | 0xf000 =>
    match opcode &&& 0x00ff with
    | 0x0007 => some .ld_vx_dt
    | 0x000a => none
    | 0x0015 => some .ld_dt_vx
    | 0x0018 => some .ld_st_vx
    | 0x001e => some .add_i_vx
    | 0x0029 => some .ld_i_spr
    | 0x0033 => some .ld_b_vx
    | 0x0055 => some .ld_i_vx
    | 0x0065 => some .ld_vx_i
    | _ => some .nop
  | _ => some .nop

/-- Execution of a decoded handler, `op(self, ctx)` in `Cpu::cycle`
(cpu.rs:132).  `Cpu::skp` and `Cpu::sknp` (cpu.rs:449-458) are
`unimplemented!()` -- a panic, i.e. `none`.  `rnd` is the oracle byte
for `Cpu::rnd`. -/
def Cpu.exec (op : Instr) (c : Cpu) (ctx : CpuContext) (rnd : Nat) :
    Option (Cpu × CpuContext) :=
  match op with
  | .cls => some (c, Cpu.cls ctx)
  | .ret => (c.ret).map (fun c1 => (c1, ctx))
  | .exit => some (c.exit, ctx)
  | .sys => some (c.sys, ctx)
  | .jp => some (c.jp ctx, ctx)
  | .call => (c.call ctx).map (fun c1 => (c1, ctx))
  | .se_vx_kk => some (c.se_vx_kk ctx, ctx)
  | .sne_vx_kk => some (c.sne_vx_kk ctx, ctx)
  | .se_vx_vy => some (c.se_vx_vy ctx, ctx)
  | .ld_vx_kk => some (c.ld_vx_kk ctx, ctx)
  | .add_vx_kk => some (c.add_vx_kk ctx, ctx)
  | .ld_vx_vy => some (c.ld_vx_vy ctx, ctx)
  | .or => some (c.or ctx, ctx)
  | .and => some (c.and ctx, ctx)
  | .xor => some (c.xor ctx, ctx)
  | .add_vx_vy => some (c.add_vx_vy ctx, ctx)
  | .sub_vx_vy => some (c.sub_vx_vy ctx, ctx)
  | .shr => some (c.shr ctx, ctx)
  | .subn => some (c.subn ctx, ctx)
  | .shl => some (c.shl ctx, ctx)
  | .nop => some (c.nop, ctx)
  | .sne_vx_vy => some (c.sne_vx_vy ctx, ctx)
  | .ld => some (c.ld ctx, ctx)
  | .jp_v0_addr => some (c.jp_v0_addr ctx, ctx)
  | .rnd => some (c.rnd ctx rnd, ctx)
  | .drw => c.drw ctx
  | .skp => none
  | .sknp => none
  | .ld_vx_dt => some (c.ld_vx_dt ctx, ctx)
  | .ld_dt_vx => some (c.ld_dt_vx ctx, ctx)
  | .ld_st_vx => some (c.ld_st_vx ctx, ctx)
  | .add_i_vx => some (c.add_i_vx ctx, ctx)
  | .ld_i_spr => some (c.ld_i_spr ctx, ctx)
  | .ld_b_vx => (c.ld_b_vx ctx).map (fun c1 => (c1, ctx))
  | .ld_i_vx => some (c.ld_i_vx ctx, ctx)
  | .ld_vx_i => some (c.ld_vx_i ctx, ctx)

/-- The two gated `saturating_sub(1)` timer decrements at the top of
`Cpu::cycle` (cpu.rs:122-127). -/
def Cpu.tickTimers (c : Cpu) (ctx : CpuContext) : Cpu :=
  let c1 := if 0 < c.st && ctx.stActive then { c with st := c.st - 1 } else c
  if 0 < c1.dt && ctx.dtActive then { c1 with dt := c1.dt - 1 } else c1

/-- `Cpu::cycle` (cpu.rs:118-133): early-return when halted, gated
timer decrements, fetch, decode, `ctx.opcode := opcode`, `step(2)`,
then the handler.  `none` models a panic anywhere along the way. -/
def Cpu.cycle (c : Cpu) (ctx : CpuContext) (rnd : Nat) :
    Option (Cpu × CpuContext) :=
  if c.halted then some (c, ctx)
  else
    let c1 := c.tickTimers ctx
    match c1.fetch with
    | none => none
    | some opcode =>
      match Cpu.decode opcode with
      | none => none
      | some op =>
        let ctx1 := { ctx with opcode := opcode }
        let c2 := c1.step 2
        Cpu.exec op c2 ctx1 rnd

/-! ### Chip (chip.rs) -/

/-- The parts of `struct Chip` (chip.rs:19-27) that `Chip::reset`
touches; timers, keypad and ui flags are external collaborators. -/
@[ext] structure Chip where
  cpu : Cpu
  gpu : Gpu

/-- `Gpu::reset` (gpu.rs:45-48): just `clear`. -/
def Gpu.reset (g : Gpu) : Gpu := g.clear

/-- `Chip::reset` (chip.rs:110-113): `cpu.reset(); gpu.reset()`. -/
def Chip.reset (ch : Chip) : Chip :=
  { cpu := ch.cpu.reset, gpu := ch.gpu.reset }

/-- `Chip::load` (chip.rs:105-108): `reset` then `cpu.load(rom)`. -/
def Chip.load (ch : Chip) (rom : List Nat) : Chip :=
  let ch1 := ch.reset
  { ch1 with cpu := ch1.cpu.load rom }

/-! ### Characterizing the sprite draw

`covFrom P j k` is the boolean "some index in `[j, j+k)` satisfies
`P`", shaped exactly like the recursion of the draw loops. -/

def covFrom (P : Nat → Bool) : Nat → Nat → Bool
  | _, 0 => false
  | j, Nat.succ k => P j || covFrom P (j + 1) k

/-! ### Concrete machine states used by counterexamples and witnesses -/

/-- A context with no gated timers and a blank screen. -/
def ctx0 : CpuContext :=
  { opcode := 0, gpu := Gpu.new, stActive := false, dtActive := false }

/-- Memory image holding the single big-endian word `op` at 0x200. -/
def memWithOp (op : Nat) : Nat → Nat :=
  upd (upd (fun _ => 0) 0x200 (op >>> 8)) 0x201 (op &&& 0xff)

/-- A freshly reset machine whose program is the single word `op`. -/
def cpuWithOp (op : Nat) : Cpu :=
  { Cpu.new with memory := memWithOp op, pc := 0x200 }

/-- Sprite memory: one row byte 0x80 (leftmost pixel set) at address 0. -/
def memSpr : Nat → Nat := upd (fun _ => 0) 0 0x80

/-- A gpu whose only lit cell is linear index 0. -/
def gpuLit0 : Gpu := { Gpu.new with vram := upd (fun _ => 0) 0 1 }

/-- Registers v[0xF] = 100, v[0] = 50, all others 0. -/
def cpuDegen : Cpu :=
  { Cpu.new with v := upd (upd (fun _ => 0) 0xf 100) 0 50 }

/-- Registers v[0xF] = 0xFF, all others 0. -/
def cpuVF255 : Cpu := { Cpu.new with v := upd (fun _ => 0) 0xf 0xff }

/-- Registers v[0] = 250, v[1] = 10. -/
def cpuAdd : Cpu :=
  { Cpu.new with v := upd (upd (fun _ => 0) 0 250) 1 10 }

/-- Registers v[0] = 5, v[1] = 7, with i = 0x300. -/
def cpuBlock : Cpu :=
  { Cpu.new with i := 0x300, v := upd (upd (fun _ => 0) 0 5) 1 7 }

/-- A halted machine with every memory byte 1 (so that reset's zeroing
is observable). -/
def chipHalted : Chip :=
  { cpu := { Cpu.new with halted := true, memory := fun _ => 1 }, gpu := Gpu.new }

/-- A 3585-byte ROM: one byte more than the 0x200..0xFFF program
space holds. -/
def romBig : List Nat := List.replicate 3584 1 ++ [7]

/-! ### Properties of covFrom -/

theorem covFrom_zero (P : Nat → Bool) (j : Nat) : covFrom P j 0 = false := rfl

theorem covFrom_succ (P : Nat → Bool) (j k : Nat) :
    covFrom P j (k + 1) = (P j || covFrom P (j + 1) k) := rfl

theorem covFrom_congr {P Q : Nat → Bool} :
    ∀ k j, (∀ m, j ≤ m → m < j + k → P m = Q m) →
    covFrom P j k = covFrom Q j k := by
  intro k
  induction k with
  | zero => intro j _; rfl
  | succ k ih =>
    intro j h
    simp only [covFrom]
    rw [h j (Nat.le_refl j) (by omega), ih (j + 1) (fun m hm hm2 => h m (by omega) (by omega))]

theorem covFrom_eq_false {P : Nat → Bool} :
    ∀ k j, (∀ m, j ≤ m → m < j + k → P m = false) →
    covFrom P j k = false := by
  intro k
  induction k with
  | zero => intro j _; rfl
  | succ k ih =>
    intro j h
    simp only [covFrom, Bool.or_eq_false_iff]
    exact ⟨h j (Nat.le_refl j) (by omega),
           ih (j + 1) (fun m hm hm2 => h m (by omega) (by omega))⟩

theorem covFrom_true_iff {P : Nat → Bool} :
    ∀ k j, covFrom P j k = true ↔ ∃ m, j ≤ m ∧ m < j + k ∧ P m = true := by
  intro k
  induction k with
  | zero =>
    intro j
    simp only [covFrom]
    constructor
    · intro h; exact absurd h (by simp)
    · rintro ⟨m, hm1, hm2, _⟩; omega
  | succ k ih =>
    intro j
    simp only [covFrom, Bool.or_eq_true, ih (j + 1)]
    constructor
    · rintro (h | ⟨m, hm1, hm2, hm3⟩)
      · exact ⟨j, Nat.le_refl j, by omega, h⟩
      · exact ⟨m, by omega, by omega, hm3⟩
    · rintro ⟨m, hm1, hm2, hm3⟩
      rcases Nat.eq_or_lt_of_le hm1 with rfl | hlt
      · exact Or.inl hm3
      · exact Or.inr ⟨m, by omega, by omega, hm3⟩

/-- Within one sprite row the eight bit targets are distinct. -/
theorem target_inj_px (x y w py : Nat) {j1 j2 : Nat}
    (h : target x y w py j1 = target x y w py j2) : j1 = j2 := by
  unfold target at h
  omega

/-- Across rows: with `8 ≤ w` and bit columns `< 8`, two bits of
different rows never share a target cell. -/
theorem target_inj (x y w : Nat) (hw : 8 ≤ w) {p1 j1 p2 j2 : Nat}
    (h1 : j1 < 8) (h2 : j2 < 8)
    (h : target x y w p1 j1 = target x y w p2 j2) : p1 = p2 ∧ j1 = j2 := by
  unfold target at h
  have h' : j1 + (y + p1) * w = j2 + (y + p2) * w := by omega
  have hm : j1 = j2 := by
    have e1 : (j1 + (y + p1) * w) % w = j1 := by
      rw [Nat.add_mul_mod_self_right]
      exact Nat.mod_eq_of_lt (by omega)
    have e2 : (j2 + (y + p2) * w) % w = j2 := by
      rw [Nat.add_mul_mod_self_right]
      exact Nat.mod_eq_of_lt (by omega)
    rw [← e1, ← e2, h']
  subst hm
  have hp : (y + p1) * w = (y + p2) * w := by omega
  have : y + p1 = y + p2 := Nat.eq_of_mul_eq_mul_right (by omega) hp
  omega

/-- Characterization of the inner bit loop: it succeeds when every set
bit's target is in bounds, each covered cell is XORed once, and the
collision flag accumulates `vram(target) == 1` over the ORIGINAL vram
(within one draw no two bits share a target cell). -/
theorem drawBitsAux_spec (x y w py pixel : Nat) :
    ∀ k px (g : Gpu) (cl : Bool),
    (∀ j, px ≤ j → j < px + k → bitSet pixel j = true →
      target x y w py j < 4096) →
    ∃ g1,
      drawBitsAux x y w py pixel px k (g, cl) =
        some (g1, cl || covFrom
          (fun j => bitSet pixel j && (g.vram (target x y w py j) == 1)) px k) ∧
      g1.width = g.width ∧ g1.height = g.height ∧
      ∀ a, g1.vram a =
        if covFrom (fun j => bitSet pixel j && (a == target x y w py j)) px k
        then g.vram a ^^^ 1 else g.vram a := by
  intro k
  induction k with
  | zero =>
    intro px g cl _
    exact ⟨g, by simp [drawBitsAux, covFrom], rfl, rfl,
           fun a => by simp [covFrom]⟩
  | succ k ih =>
    intro px g cl hb
    cases hset : bitSet pixel px with
    | false =>
      obtain ⟨g1, heq, hw1, hh1, hv1⟩ :=
        ih (px + 1) g cl (fun j h1 h2 hs => hb j (by omega) (by omega) hs)
      refine ⟨g1, ?_, hw1, hh1, ?_⟩
      · have step : drawBitsAux x y w py pixel px (k + 1) (g, cl) =
            drawBitsAux x y w py pixel (px + 1) k (g, cl) := by
          simp [drawBitsAux, drawBit, hset]
        rw [step, heq]
        simp only [covFrom, hset, Bool.false_and, Bool.false_or]
      · intro a
        rw [hv1 a]
        simp only [covFrom, hset, Bool.false_and, Bool.false_or]
    | true =>
      have ha0 : target x y w py px < 4096 :=
        hb px (Nat.le_refl px) (by omega) hset
      obtain ⟨g1, heq, hw1, hh1, hv1⟩ :=
        ih (px + 1)
          { g with vram := upd g.vram (target x y w py px) (g.vram (target x y w py px) ^^^ 1) }
          (cl || (g.vram (target x y w py px) == 1))
          (fun j h1 h2 hs => hb j (by omega) (by omega) hs)
      refine ⟨g1, ?_, hw1, hh1, ?_⟩
      · have step : drawBitsAux x y w py pixel px (k + 1) (g, cl) =
            drawBitsAux x y w py pixel (px + 1) k
              ({ g with vram := upd g.vram (target x y w py px) (g.vram (target x y w py px) ^^^ 1) },
               cl || (g.vram (target x y w py px) == 1)) := by
          simp [drawBitsAux, drawBit, hset, ha0]
        rw [step, heq]
        have hcong : covFrom (fun j => bitSet pixel j &&
              (upd g.vram (target x y w py px)
                (g.vram (target x y w py px) ^^^ 1) (target x y w py j) == 1))
              (px + 1) k =
            covFrom (fun j => bitSet pixel j &&
              (g.vram (target x y w py j) == 1)) (px + 1) k := by
          apply covFrom_congr
          intro m hm1 hm2
          have hne : target x y w py m ≠ target x y w py px := by
            intro hEq
            have := target_inj_px x y w py hEq
            omega
          simp [upd, hne]
        simp only [hcong]
        simp only [covFrom, hset, Bool.true_and, Bool.or_assoc]
      · intro a
        rw [hv1 a]
        by_cases ha : a = target x y w py px
        · subst ha
          have hrest : covFrom (fun j => bitSet pixel j &&
              (target x y w py px == target x y w py j)) (px + 1) k = false := by
            apply covFrom_eq_false
            intro m hm1 hm2
            have hne : target x y w py px ≠ target x y w py m := by
              intro hEq
              have := target_inj_px x y w py hEq
              omega
            simp [hne]
          simp [covFrom, hrest, hset, upd]
        · have h1 : (a == target x y w py px) = false := by
            simp [ha]
          simp only [covFrom, hset, Bool.true_and, h1, Bool.false_or]
          simp [upd, ha]

/-- Characterization of the row loop of `Gpu::draw_sprite`: when every
sprite byte read and every set bit's target are in bounds, the draw
succeeds; each covered cell is XORed once, and the collision flag is
an OR of `vram(target) == 1` over the ORIGINAL vram (all targets of a
draw are pairwise distinct when `8 ≤ w`). -/
theorem drawRowsAux_spec (mem : Nat → Nat) (i x y w : Nat) (hw : 8 ≤ w) :
    ∀ k py (g : Gpu) (cl : Bool),
    (∀ d, d < k → i + (py + d) < 4096) →
    (∀ d j, d < k → j < 8 → bitSet (mem (i + (py + d))) j = true →
      target x y w (py + d) j < 4096) →
    ∃ g1,
      drawRowsAux mem i x y w py k (g, cl) =
        some (g1, cl || covFrom (fun r => covFrom
          (fun j => bitSet (mem (i + r)) j && (g.vram (target x y w r j) == 1)) 0 8) py k) ∧
      g1.width = g.width ∧ g1.height = g.height ∧
      ∀ a, g1.vram a =
        if covFrom (fun r => covFrom
            (fun j => bitSet (mem (i + r)) j && (a == target x y w r j)) 0 8) py k
        then g.vram a ^^^ 1 else g.vram a := by
  intro k
  induction k with
  | zero =>
    intro py g cl _ _
    exact ⟨g, by simp [drawRowsAux, covFrom], rfl, rfl,
           fun a => by simp [covFrom]⟩
  | succ k ih =>
    intro py g cl hm ht
    have hmem0 : i + py < 4096 := by
      have := hm 0 (by omega)
      simpa using this
    obtain ⟨gm, heqB, hwB, hhB, hvB⟩ :=
      drawBitsAux_spec x y w py (mem (i + py)) 8 0 g cl
        (fun j h1 h2 hs => by
          have := ht 0 j (by omega) (by omega) (by simpa using hs)
          simpa using this)
    obtain ⟨g1, heqR, hwR, hhR, hvR⟩ :=
      ih (py + 1) gm
        (cl || covFrom (fun j => bitSet (mem (i + py)) j && (g.vram (target x y w py j) == 1)) 0 8)
        (fun d hd => by
          have := hm (d + 1) (by omega)
          omega)
        (fun d j hd hj hs => by
          have e : py + (d + 1) = py + 1 + d := by omega
          have := ht (d + 1) j (by omega) hj (by rw [e]; exact hs)
          rw [e] at this
          exact this)
    have hcoll : covFrom (fun r => covFrom
          (fun j => bitSet (mem (i + r)) j && (gm.vram (target x y w r j) == 1)) 0 8) (py + 1) k =
        covFrom (fun r => covFrom
          (fun j => bitSet (mem (i + r)) j && (g.vram (target x y w r j) == 1)) 0 8) (py + 1) k := by
      apply covFrom_congr
      intro r hr1 hr2
      apply covFrom_congr
      intro j hj1 hj2
      have hvram : gm.vram (target x y w r j) = g.vram (target x y w r j) := by
        rw [hvB]
        have hfalse : covFrom (fun m => bitSet (mem (i + py)) m &&
            (target x y w r j == target x y w py m)) 0 8 = false := by
          apply covFrom_eq_false
          intro m hm1 hm2
          have hne : target x y w r j ≠ target x y w py m := by
            intro hEq
            obtain ⟨hp, _⟩ := target_inj x y w hw (by omega) (by omega) hEq
            omega
          simp [hne]
        rw [hfalse]
        simp
      rw [hvram]
    refine ⟨g1, ?_, by rw [hwR, hwB], by rw [hhR, hhB], ?_⟩
    · have step : drawRowsAux mem i x y w py (k + 1) (g, cl) =
          drawRowsAux mem i x y w (py + 1) k
            (gm, cl || covFrom (fun j => bitSet (mem (i + py)) j && (g.vram (target x y w py j) == 1)) 0 8) := by
        simp only [drawRowsAux, if_pos hmem0, heqB]
      rw [step, heqR, hcoll]
      conv_rhs => rw [covFrom_succ]
      simp only [Bool.or_assoc]
    · intro a
      rw [hvR a]
      cases hc : covFrom (fun j => bitSet (mem (i + py)) j && (a == target x y w py j)) 0 8 with
      | true =>
        obtain ⟨j0, hj0a, hj0b, hj0c⟩ := (covFrom_true_iff 8 0).mp hc
        have hbit : bitSet (mem (i + py)) j0 = true := by
          have := hj0c
          simp only [Bool.and_eq_true] at this
          exact this.1
        have haeq : a = target x y w py j0 := by
          have := hj0c
          simp only [Bool.and_eq_true, beq_iff_eq] at this
          exact this.2
        have hrest : covFrom (fun r => covFrom
            (fun j => bitSet (mem (i + r)) j && (a == target x y w r j)) 0 8) (py + 1) k = false := by
          apply covFrom_eq_false
          intro r hr1 hr2
          apply covFrom_eq_false
          intro m hm1 hm2
          have hne : a ≠ target x y w r m := by
            rw [haeq]
            intro hEq
            obtain ⟨hp, _⟩ := target_inj x y w hw (by omega) (by omega) hEq
            omega
          simp [hne]
        have hgm : gm.vram a = g.vram a ^^^ 1 := by
          rw [hvB, hc]
          simp
        rw [hrest, hgm, covFrom_succ]
        simp [hc]
      | false =>
        have hgm : gm.vram a = g.vram a := by
          rw [hvB, hc]
          simp
        rw [hgm, covFrom_succ]
        simp only [hc, Bool.false_or]

/-- Top-level characterization of `Gpu::draw_sprite` for in-bounds
draws on a gpu of width `w`. -/
theorem draw_sprite_spec (g : Gpu) (mem : Nat → Nat) (i len x y w : Nat)
    (hgw : g.width = w) (hw : 8 ≤ w)
    (hmem : ∀ d, d < len → i + d < 4096)
    (htgt : ∀ d j, d < len → j < 8 → bitSet (mem (i + d)) j = true →
      target x y w d j < 4096) :
    ∃ g1,
      g.draw_sprite mem i len x y =
        some (g1, covFrom (fun r => covFrom
          (fun j => bitSet (mem (i + r)) j && (g.vram (target x y w r j) == 1)) 0 8) 0 len) ∧
      g1.width = w ∧ g1.height = g.height ∧
      ∀ a, g1.vram a =
        if covFrom (fun r => covFrom
            (fun j => bitSet (mem (i + r)) j && (a == target x y w r j)) 0 8) 0 len
        then g.vram a ^^^ 1 else g.vram a := by
  obtain ⟨g1, heq, hw1, hh1, hv1⟩ :=
    drawRowsAux_spec mem i x y w hw len 0 g false
      (fun d hd => by
        have := hmem d hd
        omega)
      (fun d j hd hj hs => by
        have := htgt d j hd hj (by simpa using hs)
        simpa using this)
  refine ⟨g1, ?_, by rw [hw1, hgw], hh1, hv1⟩
  unfold Gpu.draw_sprite
  rw [hgw, heq]
  simp

/-! ### Field-preservation helpers -/

theorem tickTimers_fields (c : Cpu) (ctx : CpuContext) :
    (c.tickTimers ctx).halted = c.halted ∧ (c.tickTimers ctx).memory = c.memory ∧
    (c.tickTimers ctx).stack = c.stack ∧ (c.tickTimers ctx).v = c.v ∧
    (c.tickTimers ctx).i = c.i ∧ (c.tickTimers ctx).pc = c.pc ∧
    (c.tickTimers ctx).sp = c.sp := by
  unfold Cpu.tickTimers
  dsimp only
  split <;> split <;> exact ⟨rfl, rfl, rfl, rfl, rfl, rfl, rfl⟩

theorem step_fields (c : Cpu) (n : Nat) :
    (c.step n).pc = c.pc + n ∧ (c.step n).memory = c.memory ∧
    (c.step n).stack = c.stack ∧ (c.step n).v = c.v ∧
    (c.step n).i = c.i ∧ (c.step n).sp = c.sp := by
  unfold Cpu.step
  dsimp only
  split <;> exact ⟨rfl, rfl, rfl, rfl, rfl, rfl⟩

/-- Full characterization of one `Cpu::cycle` on an opcode that
decodes to the `nop` fallback handler: the cycle completes normally
(no panic, no error value), pc advances by 2 (cycle) + 2 (nop) = 4,
and nothing else of the machine or the screen changes. -/
theorem cycle_nop (c : Cpu) (ctx : CpuContext) (rnd : Nat)
    (hh : c.halted = false) (hpc : c.pc + 1 < 4096)
    (hdec : Cpu.decode (fetchWord c) = some Instr.nop) :
    ∃ c1 ctx1, Cpu.cycle c ctx rnd = some (c1, ctx1) ∧
      c1.pc = c.pc + 4 ∧ c1.v = c.v ∧ c1.memory = c.memory ∧
      c1.i = c.i ∧ c1.sp = c.sp ∧ c1.stack = c.stack ∧
      ctx1.gpu = ctx.gpu := by
  obtain ⟨ht_h, ht_m, ht_s, ht_v, ht_i, ht_pc, ht_sp⟩ := tickTimers_fields c ctx
  have hfw : fetchWord (c.tickTimers ctx) = fetchWord c := by
    unfold fetchWord
    rw [ht_m, ht_pc]
  have hfetch : (c.tickTimers ctx).fetch = some (fetchWord c) := by
    unfold Cpu.fetch
    rw [ht_pc, if_pos hpc, hfw]
  refine ⟨((c.tickTimers ctx).step 2).step 2, { ctx with opcode := fetchWord c },
    ?_, ?_, ?_, ?_, ?_, ?_, ?_, rfl⟩
  · unfold Cpu.cycle
    rw [hh]
    simp only [Bool.false_eq_true, if_false]
    rw [hfetch]
    dsimp only
    rw [hdec]
    dsimp only
    simp only [Cpu.exec, Cpu.nop]
  · obtain ⟨h1, _, _, _, _, _⟩ := step_fields ((c.tickTimers ctx).step 2) 2
    obtain ⟨h2, _, _, _, _, _⟩ := step_fields (c.tickTimers ctx) 2
    omega
  · obtain ⟨_, _, _, h1, _, _⟩ := step_fields ((c.tickTimers ctx).step 2) 2
    obtain ⟨_, _, _, h2, _, _⟩ := step_fields (c.tickTimers ctx) 2
    rw [h1, h2, ht_v]
  · obtain ⟨_, h1, _, _, _, _⟩ := step_fields ((c.tickTimers ctx).step 2) 2
    obtain ⟨_, h2, _, _, _, _⟩ := step_fields (c.tickTimers ctx) 2
    rw [h1, h2, ht_m]
  · obtain ⟨_, _, _, _, h1, _⟩ := step_fields ((c.tickTimers ctx).step 2) 2
    obtain ⟨_, _, _, _, h2, _⟩ := step_fields (c.tickTimers ctx) 2
    rw [h1, h2, ht_i]
  · obtain ⟨_, _, _, _, _, h1⟩ := step_fields ((c.tickTimers ctx).step 2) 2
    obtain ⟨_, _, _, _, _, h2⟩ := step_fields (c.tickTimers ctx) 2
    rw [h1, h2, ht_sp]
  · obtain ⟨_, _, h1, _, _, _⟩ := step_fields ((c.tickTimers ctx).step 2) 2
    obtain ⟨_, _, h2, _, _, _⟩ := step_fields (c.tickTimers ctx) 2
    rw [h1, h2, ht_s]

/-! ### Claim C1 -/

/-- Claim C1 (corrected): there is no error taxonomy and no result
channel in the code; RET with SP = 0 underflows the u8 stack pointer
and CALL with SP = 16 writes past the 16-entry stack, and both abort
(panic, modelled `none`) instead of completing with an error value or
a Halted transition. -/
theorem ret_call_abort (c1 c2 : Cpu) (ctx : CpuContext)
    (h1 : c1.sp = 0) (h2 : c2.sp = 16) :
    Cpu.ret c1 = none ∧ Cpu.call c2 ctx = none := by
  constructor
  · unfold Cpu.ret
    rw [if_pos h1]
  · unfold Cpu.call
    rw [h2]
    simp

/-- Witness for `ret_call_abort` at concrete machines with SP = 0 and
SP = 16. -/
theorem ret_call_abort_witness :
    Cpu.new.sp = 0 ∧ ({ Cpu.new with sp := 16 } : Cpu).sp = 16 ∧
    (Cpu.ret Cpu.new = none ∧ Cpu.call { Cpu.new with sp := 16 } ctx0 = none) :=
  ⟨rfl, rfl, ret_call_abort Cpu.new { Cpu.new with sp := 16 } ctx0 rfl rfl⟩

/-- Claim C1 counterexample: on the concrete fresh machine (SP = 0)
RET panics (`none`), and CALL on a machine with SP = 16 panics --
neither returns an error result. -/
theorem ret_sp0_aborts :
    Cpu.ret Cpu.new = none ∧ Cpu.call { Cpu.new with sp := 16 } ctx0 = none :=
  ⟨rfl, rfl⟩

/-! ### Claim C2 -/

/-- Claim C2 (code bug): `LD [I],Vx` with x = 1 (opcode 0xF155),
V0 = 5, V1 = 7, I = 0x300 copies ONLY V0 -- memory[0x300] = 5 but
memory[0x301] stays 0 although V1 = 7 -- because the slice `v[0..vx]`
excludes index vx, contradicting the function's own doc comment
("registers <v0> to <vx> (inclusive)").  Likewise `LD Vx,[I]`
(opcode 0xF165) leaves V1 untouched. -/
theorem ld_i_vx_offbyone :
    (Cpu.ld_i_vx cpuBlock { ctx0 with opcode := 0xf155 }).memory 0x300 = 5 ∧
    (Cpu.ld_i_vx cpuBlock { ctx0 with opcode := 0xf155 }).memory 0x301 = 0 ∧
    cpuBlock.v 1 = 7 ∧
    (Cpu.ld_vx_i cpuBlock { ctx0 with opcode := 0xf165 }).v 1 = 7 := by
  refine ⟨?_, ?_, ?_, ?_⟩ <;> decide

/-! ### Claim C5 -/

/-- Claim C5 (corrected): for every x ≠ 0xF (and every y, including
y = 0xF and y = x), ADD Vx,Vy sets VF to the pre-operation carry and
Vx to the wrapped sum.  For x = 0xF the second write clobbers the
flag (see the counterexample). -/
theorem add_vx_vy_spec (c : Cpu) (ctx : CpuContext)
    (hx : vxIdx ctx.opcode ≠ 0xf) :
    (Cpu.add_vx_vy c ctx).v 0xf =
      (if 255 < c.v (vxIdx ctx.opcode) + c.v (vyIdx ctx.opcode) then 1 else 0) ∧
    (Cpu.add_vx_vy c ctx).v (vxIdx ctx.opcode) =
      (c.v (vxIdx ctx.opcode) + c.v (vyIdx ctx.opcode)) % 256 := by
  have hx' : (0xf : Nat) ≠ vxIdx ctx.opcode := fun h => hx h.symm
  unfold Cpu.add_vx_vy
  dsimp only
  constructor
  · simp [upd, CARRY, hx']
  · simp [upd, CARRY]

/-- Witness for `add_vx_vy_spec`: opcode 0x8014 with V0 = 250,
V1 = 10. -/
theorem add_vx_vy_spec_witness :
    vxIdx 0x8014 ≠ 0xf ∧
    ((Cpu.add_vx_vy cpuAdd { ctx0 with opcode := 0x8014 }).v 0xf =
      (if 255 < cpuAdd.v (vxIdx 0x8014) + cpuAdd.v (vyIdx 0x8014) then 1 else 0) ∧
     (Cpu.add_vx_vy cpuAdd { ctx0 with opcode := 0x8014 }).v (vxIdx 0x8014) =
      (cpuAdd.v (vxIdx 0x8014) + cpuAdd.v (vyIdx 0x8014)) % 256) :=
  ⟨by decide, add_vx_vy_spec cpuAdd { ctx0 with opcode := 0x8014 } (by decide)⟩

/-- Claim C5 counterexample: with x = 0xF (opcode 0x8F04), V0xF = 100,
V0 = 50, the final VF is the wrapped sum 150, not the carry value 0
the claim demands. -/
theorem add_vx_vy_vf_degenerate :
    (Cpu.add_vx_vy cpuDegen { ctx0 with opcode := 0x8f04 }).v 0xf = 150 ∧
    ¬ ((Cpu.add_vx_vy cpuDegen { ctx0 with opcode := 0x8f04 }).v 0xf =
        if 255 < cpuDegen.v (vxIdx 0x8f04) + cpuDegen.v (vyIdx 0x8f04) then 1 else 0) := by
  constructor <;> decide

/-! ### Claim C6 -/

/-- Claim C6 (corrected): for every x ≠ 0xF, SHR puts the pre-shift
lsb into VF and the halved pre-value into Vx, and SHL puts the
pre-shift msb into VF and the wrapped doubled pre-value into Vx.  For
x = 0xF the handler re-reads v[vx] AFTER writing VF, so the claim
fails (see the counterexample). -/
theorem shr_shl_spec (c : Cpu) (ctx : CpuContext)
    (hx : vxIdx ctx.opcode ≠ 0xf) :
    (Cpu.shr c ctx).v 0xf = c.v (vxIdx ctx.opcode) &&& 1 ∧
    (Cpu.shr c ctx).v (vxIdx ctx.opcode) = c.v (vxIdx ctx.opcode) / 2 ∧
    (Cpu.shl c ctx).v 0xf = msb (c.v (vxIdx ctx.opcode)) ∧
    (Cpu.shl c ctx).v (vxIdx ctx.opcode) = c.v (vxIdx ctx.opcode) * 2 % 256 := by
  have hx' : (0xf : Nat) ≠ vxIdx ctx.opcode := fun h => hx h.symm
  unfold Cpu.shr Cpu.shl
  dsimp only
  refine ⟨?_, ?_, ?_, ?_⟩ <;> simp [upd, CARRY, hx, hx']

/-- Witness for `shr_shl_spec`: opcode 0x8206 / 0x820E with V2 = 7
(from the fresh machine's zero registers it uses V2 = 0; instead use
`cpuAdd`, whose V1 = 10, with x = 1). -/
theorem shr_shl_spec_witness :
    vxIdx 0x8106 ≠ 0xf ∧
    ((Cpu.shr cpuAdd { ctx0 with opcode := 0x8106 }).v 0xf = cpuAdd.v (vxIdx 0x8106) &&& 1 ∧
     (Cpu.shr cpuAdd { ctx0 with opcode := 0x8106 }).v (vxIdx 0x8106) = cpuAdd.v (vxIdx 0x8106) / 2 ∧
     (Cpu.shl cpuAdd { ctx0 with opcode := 0x8106 }).v 0xf = msb (cpuAdd.v (vxIdx 0x8106)) ∧
     (Cpu.shl cpuAdd { ctx0 with opcode := 0x8106 }).v (vxIdx 0x8106) = cpuAdd.v (vxIdx 0x8106) * 2 % 256) :=
  ⟨by decide, shr_shl_spec cpuAdd { ctx0 with opcode := 0x8106 } (by decide)⟩

/-- Claim C6 counterexample: SHR with x = 0xF (opcode 0x8F06) on
V0xF = 0xFF ends with VF = 0, not the pre-shift lsb 1: the handler
wrote VF = 1 and then shifted the freshly written flag. -/
theorem shr_vf_degenerate :
    (Cpu.shr cpuVF255 { ctx0 with opcode := 0x8f06 }).v 0xf = 0 ∧
    ¬ ((Cpu.shr cpuVF255 { ctx0 with opcode := 0x8f06 }).v 0xf =
        cpuVF255.v (vxIdx 0x8f06) &&& 1) := by
  constructor <;> decide

/-! ### Claim C7 -/

/-- Claim C7 (corrected): after `Chip::reset`, V registers, I, SP, DT,
ST are zero, PC = 0x200 and the framebuffer is cleared -- but ALL of
memory is zeroed, so the 80-byte glyph table is NOT present (only
`load` seeds it), and the `halted` flag is left unchanged, so reset
does not force a Running state. -/
theorem chip_reset_spec (ch : Chip) :
    (∀ a, (Chip.reset ch).cpu.memory a = 0) ∧
    (∀ r, (Chip.reset ch).cpu.v r = 0) ∧
    (Chip.reset ch).cpu.i = 0 ∧ (Chip.reset ch).cpu.pc = 0x200 ∧
    (Chip.reset ch).cpu.sp = 0 ∧ (Chip.reset ch).cpu.dt = 0 ∧
    (Chip.reset ch).cpu.st = 0 ∧
    (∀ a, (Chip.reset ch).gpu.vram a = 0) ∧
    (Chip.reset ch).cpu.halted = ch.cpu.halted :=
  ⟨fun _ => rfl, fun _ => rfl, rfl, rfl, rfl, rfl, rfl, fun _ => rfl, rfl⟩

/-- Claim C7 counterexample: resetting a halted machine with nonzero
memory leaves memory[0] = 0 -- not the first glyph byte 0xf0 -- and
leaves the machine halted rather than Running. -/
theorem reset_counterexample :
    (Chip.reset chipHalted).cpu.memory 0 = 0 ∧
    BOOTROM.getD 0 0 = 0xf0 ∧
    (Chip.reset chipHalted).cpu.halted = true :=
  ⟨rfl, rfl, rfl⟩

/-! ### Claim C8 -/

theorem getD_take (l : List Nat) :
    ∀ n m, m < n → (l.take n).getD m 0 = l.getD m 0 := by
  induction l with
  | nil =>
    intro n m _
    simp
  | cons a t ih =>
    intro n m h
    cases n with
    | zero => omega
    | succ n =>
      cases m with
      | zero => simp
      | succ m =>
        simp only [List.take_succ_cons, List.getD_cons_succ]
        exact ih n m (by omega)

/-- `Cpu::load` cannot see past the first 3584 ROM bytes: loading any
ROM produces exactly the same machine as loading its 3584-byte
truncation. -/
theorem load_eq_load_take (c : Cpu) (code : List Nat) :
    Cpu.load c code = Cpu.load c (code.take 3584) := by
  unfold Cpu.load
  dsimp only
  have hm : writeBytes (writeBytes c.memory 0 0x1ff BOOTROM) 0x200 (4096 - 0x200) code =
      writeBytes (writeBytes c.memory 0 0x1ff BOOTROM) 0x200 (4096 - 0x200) (code.take 3584) := by
    funext b
    unfold writeBytes
    have hlen : min (code.take 3584).length (4096 - 0x200) =
        min code.length (4096 - 0x200) := by
      simp only [List.length_take]
      omega
    rw [hlen]
    split
    · rename_i hcond
      exact (getD_take code 3584 (b - 0x200) (by omega)).symm
    · rfl
  rw [hm]

/-- Claim C8 (corrected): `load` never reports any error.  A ROM
within the 3584-byte program space is copied in full to 0x200, and a
longer ROM is SILENTLY truncated: loading it is indistinguishable
from loading its first 3584 bytes. -/
theorem load_spec (c : Cpu) (code : List Nat) :
    (code.length ≤ 3584 → ∀ j, j < code.length →
      (Cpu.load c code).memory (0x200 + j) = code.getD j 0) ∧
    Cpu.load c code = Cpu.load c (code.take 3584) := by
  refine ⟨?_, load_eq_load_take c code⟩
  intro hle j hj
  unfold Cpu.load writeBytes
  dsimp only
  have hcond : 0x200 ≤ 0x200 + j ∧ 0x200 + j < 0x200 + min code.length (4096 - 0x200) := by
    omega
  rw [if_pos hcond]
  have hidx : 0x200 + j - 0x200 = j := by omega
  rw [hidx]

/-- Witness for `load_spec`: the two-byte ROM [1, 2] is copied to
0x200. -/
theorem load_spec_witness :
    ([1, 2] : List Nat).length ≤ 3584 ∧
    (Cpu.load Cpu.new [1, 2]).memory (0x200 + 0) = ([1, 2] : List Nat).getD 0 0 :=
  ⟨by decide, (load_spec Cpu.new [1, 2]).1 (by decide) 0 (by decide)⟩

/-- Claim C8 counterexample: the 3585-byte ROM `romBig` loads with no
error and produces exactly the machine obtained from its 3584-byte
truncation -- its last byte is silently dropped, where the claim
demands a RomTooLargeError result. -/
theorem load_truncates_silently :
    Cpu.load Cpu.new romBig = Cpu.load Cpu.new (List.replicate 3584 1) ∧
    romBig.length = 3585 := by
  constructor
  · have h : romBig.take 3584 = List.replicate 3584 1 := by
      unfold romBig
      rw [List.take_left']
      exact List.length_replicate 3584 1
    rw [load_eq_load_take Cpu.new romBig, h]
  · unfold romBig
    rw [List.length_append, List.length_replicate]
    rfl

/-! ### Claims C3 and C10 -/

/-- Claim C3 (corrected): an instruction word that matches no defined
opcode pattern decodes to the `nop` fallback and is executed as a
SILENT no-op: the cycle completes with a `some` result (no decode
error ever reaches the caller) and registers, memory, I, SP and the
screen are unchanged -- only pc (and the gated timers) move. -/
theorem unknown_opcode_noop_spec (c : Cpu) (ctx : CpuContext) (rnd : Nat)
    (hh : c.halted = false) (hpc : c.pc + 1 < 4096)
    (hdec : Cpu.decode (fetchWord c) = some Instr.nop) :
    ∃ c1 ctx1, Cpu.cycle c ctx rnd = some (c1, ctx1) ∧
      c1.v = c.v ∧ c1.memory = c.memory ∧ c1.i = c.i ∧ c1.sp = c.sp ∧
      ctx1.gpu = ctx.gpu := by
  obtain ⟨c1, ctx1, h1, _, h3, h4, h5, h6, _, h8⟩ := cycle_nop c ctx rnd hh hpc hdec
  exact ⟨c1, ctx1, h1, h3, h4, h5, h6, h8⟩

/-- Witness for `unknown_opcode_noop_spec` on the unmatched opcode
0x800A. -/
theorem unknown_opcode_noop_spec_witness :
    ((cpuWithOp 0x800a).halted = false ∧ (cpuWithOp 0x800a).pc + 1 < 4096 ∧
      Cpu.decode (fetchWord (cpuWithOp 0x800a)) = some Instr.nop) ∧
    (∃ c1 ctx1, Cpu.cycle (cpuWithOp 0x800a) ctx0 0 = some (c1, ctx1) ∧
      c1.v = (cpuWithOp 0x800a).v ∧ c1.memory = (cpuWithOp 0x800a).memory ∧
      c1.i = (cpuWithOp 0x800a).i ∧ c1.sp = (cpuWithOp 0x800a).sp ∧
      ctx1.gpu = ctx0.gpu) :=
  ⟨⟨rfl, by decide, by decide⟩,
   unknown_opcode_noop_spec (cpuWithOp 0x800a) ctx0 0 rfl (by decide) (by decide)⟩

/-- Claim C3 counterexample: opcode 0x8009 matches no defined pattern
(8xy9 is undefined), yet a cycle on it completes normally with `some`,
pc moving 0x200 → 0x204 and nothing else -- no DecodeError is
surfaced. -/
theorem unknown_opcode_executes_silently :
    (Cpu.cycle (cpuWithOp 0x8009) ctx0 0).map
      (fun r => (r.1.pc, r.1.halted, r.1.v 0, r.2.opcode)) =
      some (0x204, false, 0, 0x8009) := by
  decide

/-- Claim C10 (confirmed): a cycle on an opcode routed to the `nop`
fallback advances pc by 4 in total -- 2 from the cycle's unconditional
`step(2)` plus the handler's own `step(2)` -- silently skipping the
word that follows the unrecognized instruction. -/
theorem nop_fallback_pc_advance (c : Cpu) (ctx : CpuContext) (rnd : Nat)
    (hh : c.halted = false) (hpc : c.pc + 1 < 4096)
    (hdec : Cpu.decode (fetchWord c) = some Instr.nop) :
    ∃ c1 ctx1, Cpu.cycle c ctx rnd = some (c1, ctx1) ∧ c1.pc = c.pc + 4 := by
  obtain ⟨c1, ctx1, h1, h2, _⟩ := cycle_nop c ctx rnd hh hpc hdec
  exact ⟨c1, ctx1, h1, h2⟩

/-- Witness for `nop_fallback_pc_advance` on the unmatched opcode
0xE001. -/
theorem nop_fallback_pc_advance_witness :
    ((cpuWithOp 0xe001).halted = false ∧ (cpuWithOp 0xe001).pc + 1 < 4096 ∧
      Cpu.decode (fetchWord (cpuWithOp 0xe001)) = some Instr.nop) ∧
    (∃ c1 ctx1, Cpu.cycle (cpuWithOp 0xe001) ctx0 0 = some (c1, ctx1) ∧
      c1.pc = (cpuWithOp 0xe001).pc + 4) :=
  ⟨⟨rfl, by decide, by decide⟩,
   nop_fallback_pc_advance (cpuWithOp 0xe001) ctx0 0 rfl (by decide) (by decide)⟩

/-! ### Claim C4 -/

/-- Claim C4 (corrected): a set sprite bit at (row d, column j) is
placed at the LINEAR vram index Vx + j + (Vy + d) * 64 -- no modulo
64/32 wraparound is applied -- and only such cells change.  A target
or sprite index reaching 4096 makes the draw panic instead of
wrapping (see the counterexample). -/
theorem drw_linear_placement (g : Gpu) (mem : Nat → Nat) (i len x y : Nat)
    (hgw : g.width = 64)
    (hmem : ∀ d, d < len → i + d < 4096)
    (htgt : ∀ d, d < len → ∀ j, j < 8 → bitSet (mem (i + d)) j = true →
      x + j + (y + d) * 64 < 4096) :
    ∃ g1 cl, g.draw_sprite mem i len x y = some (g1, cl) ∧
      (∀ d, d < len → ∀ j, j < 8 → bitSet (mem (i + d)) j = true →
        g1.vram (x + j + (y + d) * 64) = g.vram (x + j + (y + d) * 64) ^^^ 1) ∧
      (∀ a, (∀ d, d < len → ∀ j, j < 8 → bitSet (mem (i + d)) j = true →
          a ≠ x + j + (y + d) * 64) →
        g1.vram a = g.vram a) := by
  obtain ⟨g1, heq, hw1, hh1, hv1⟩ :=
    draw_sprite_spec g mem i len x y 64 hgw (by omega) hmem
      (fun d j hd hj hs => htgt d hd j hj hs)
  refine ⟨g1, _, heq, ?_, ?_⟩
  · intro d hd j hj hs
    rw [hv1]
    have hcov : covFrom (fun r => covFrom (fun m => bitSet (mem (i + r)) m &&
        ((x + j + (y + d) * 64) == target x y 64 r m)) 0 8) 0 len = true := by
      apply (covFrom_true_iff len 0).mpr
      refine ⟨d, by omega, by omega, ?_⟩
      apply (covFrom_true_iff 8 0).mpr
      refine ⟨j, by omega, by omega, ?_⟩
      simp [hs, target]
    rw [hcov]
    simp
  · intro a ha
    rw [hv1]
    have hcov : covFrom (fun r => covFrom (fun m => bitSet (mem (i + r)) m &&
        (a == target x y 64 r m)) 0 8) 0 len = false := by
      apply covFrom_eq_false
      intro r hr1 hr2
      apply covFrom_eq_false
      intro m hm1 hm2
      cases hbs : bitSet (mem (i + r)) m with
      | false => simp
      | true =>
        have hne := ha r (by omega) m (by omega) hbs
        simp [target, hne]
    rw [hcov]
    simp

/-- Witness for `drw_linear_placement`: the one-row sprite 0x80 drawn
at (5, 3) on a blank screen. -/
theorem drw_linear_placement_witness :
    Gpu.new.width = 64 ∧
    (∃ g1 cl, Gpu.new.draw_sprite memSpr 0 1 5 3 = some (g1, cl) ∧
      (∀ d, d < 1 → ∀ j, j < 8 → bitSet (memSpr (0 + d)) j = true →
        g1.vram (5 + j + (3 + d) * 64) = Gpu.new.vram (5 + j + (3 + d) * 64) ^^^ 1) ∧
      (∀ a, (∀ d, d < 1 → ∀ j, j < 8 → bitSet (memSpr (0 + d)) j = true →
          a ≠ 5 + j + (3 + d) * 64) →
        g1.vram a = Gpu.new.vram a)) :=
  ⟨rfl, drw_linear_placement Gpu.new memSpr 0 1 5 3 rfl (by decide) (by decide)⟩

/-- Claim C4 counterexample: with Vx = 64, Vy = 0, the claim puts the
set pixel of sprite row 0x80 at cell (64 mod 64, 0 mod 32) = (0, 0),
linear index 0; the code instead lights linear index 64 (start of row
1) and leaves index 0 dark.  With Vy = 255 the draw panics (`none`)
on an out-of-bounds vram index instead of wrapping. -/
theorem drw_no_wrap_counterexample :
    (Gpu.draw_sprite Gpu.new memSpr 0 1 64 0).map
      (fun r => (r.1.vram 0, r.1.vram 64, r.2)) = some (0, 1, false) ∧
    Gpu.draw_sprite Gpu.new memSpr 0 1 0 255 = none := by
  constructor
  · decide
  · rfl

/-! ### Claim C9 -/

/-- Claim C9 (corrected): for an in-bounds draw, executing DRW twice
with the same sprite and position restores every framebuffer cell to
its original value -- but the second draw reports a collision iff
some set sprite bit targets a cell whose value after the first draw
(original XOR 1) is 1, NOT unconditionally: if every targeted cell
was already lit, or the sprite has no set bits, the second draw
reports collision = false (see the counterexample). -/
theorem drw_double_restore (g : Gpu) (mem : Nat → Nat) (i len x y : Nat)
    (hgw : g.width = 64)
    (hmem : ∀ d, d < len → i + d < 4096)
    (htgt : ∀ d, d < len → ∀ j, j < 8 → bitSet (mem (i + d)) j = true →
      x + j + (y + d) * 64 < 4096) :
    ∃ g1 c1 g2 c2,
      g.draw_sprite mem i len x y = some (g1, c1) ∧
      g1.draw_sprite mem i len x y = some (g2, c2) ∧
      (∀ a, g2.vram a = g.vram a) ∧
      (c2 = true ↔ ∃ d, d < len ∧ ∃ j, j < 8 ∧ bitSet (mem (i + d)) j = true ∧
        g.vram (x + j + (y + d) * 64) ^^^ 1 = 1) := by
  obtain ⟨g1, heq1, hw1, hh1, hv1⟩ :=
    draw_sprite_spec g mem i len x y 64 hgw (by omega) hmem
      (fun d j hd hj hs => htgt d hd j hj hs)
  obtain ⟨g2, heq2, hw2, hh2, hv2⟩ :=
    draw_sprite_spec g1 mem i len x y 64 hw1 (by omega) hmem
      (fun d j hd hj hs => htgt d hd j hj hs)
  have hfirst : ∀ r m, r < len → m < 8 → bitSet (mem (i + r)) m = true →
      g1.vram (target x y 64 r m) = g.vram (target x y 64 r m) ^^^ 1 := by
    intro r m hr hm hbs
    rw [hv1]
    have hcov : covFrom (fun r' => covFrom (fun m' => bitSet (mem (i + r')) m' &&
        (target x y 64 r m == target x y 64 r' m')) 0 8) 0 len = true := by
      apply (covFrom_true_iff len 0).mpr
      refine ⟨r, by omega, by omega, ?_⟩
      apply (covFrom_true_iff 8 0).mpr
      refine ⟨m, by omega, by omega, ?_⟩
      simp [hbs]
    rw [hcov]
    simp
  have hc2 : covFrom (fun r => covFrom (fun m => bitSet (mem (i + r)) m &&
        (g1.vram (target x y 64 r m) == 1)) 0 8) 0 len =
      covFrom (fun r => covFrom (fun m => bitSet (mem (i + r)) m &&
        ((g.vram (target x y 64 r m) ^^^ 1) == 1)) 0 8) 0 len := by
    apply covFrom_congr
    intro r hr1 hr2
    apply covFrom_congr
    intro m hm1 hm2
    cases hbs : bitSet (mem (i + r)) m with
    | false => simp
    | true =>
      rw [hfirst r m (by omega) (by omega) hbs]
  refine ⟨g1, _, g2, _, heq1, heq2, ?_, ?_⟩
  · intro a
    rw [hv2 a, hv1 a]
    cases hcov : covFrom (fun r => covFrom (fun m => bitSet (mem (i + r)) m &&
        (a == target x y 64 r m)) 0 8) 0 len with
    | true =>
      simp [hcov, Nat.xor_assoc]
    | false =>
      simp [hcov]
  · rw [hc2]
    constructor
    · intro h
      obtain ⟨r, hr1, hr2, hr3⟩ := (covFrom_true_iff len 0).mp h
      obtain ⟨m, hm1, hm2, hm3⟩ := (covFrom_true_iff 8 0).mp hr3
      simp only [Bool.and_eq_true, beq_iff_eq] at hm3
      exact ⟨r, by omega, m, by omega, hm3.1, by simpa [target] using hm3.2⟩
    · rintro ⟨d, hd, j, hj, hbs, hval⟩
      apply (covFrom_true_iff len 0).mpr
      refine ⟨d, by omega, by omega, ?_⟩
      apply (covFrom_true_iff 8 0).mpr
      refine ⟨j, by omega, by omega, ?_⟩
      simp [hbs, target, hval]

/-- Witness for `drw_double_restore`: the one-row sprite 0x80 drawn
twice at (0, 0) on a blank screen. -/
theorem drw_double_restore_witness :
    Gpu.new.width = 64 ∧
    (∃ g1 c1 g2 c2,
      Gpu.new.draw_sprite memSpr 0 1 0 0 = some (g1, c1) ∧
      g1.draw_sprite memSpr 0 1 0 0 = some (g2, c2) ∧
      (∀ a, g2.vram a = Gpu.new.vram a) ∧
      (c2 = true ↔ ∃ d, d < 1 ∧ ∃ j, j < 8 ∧ bitSet (memSpr (0 + d)) j = true ∧
        Gpu.new.vram (0 + j + (0 + d) * 64) ^^^ 1 = 1)) :=
  ⟨rfl, drw_double_restore Gpu.new memSpr 0 1 0 0 rfl (by decide) (by decide)⟩

/-- Claim C9 counterexample: the single-pixel sprite 0x80 drawn twice
at (0, 0) on a framebuffer whose cell 0 is already lit: the first
draw reports a collision and clears the cell, the second draw
re-lights it and reports collision = FALSE, while the claim demands
VF = 1 on the second draw. -/
theorem drw_double_collision_counterexample :
    ((Gpu.draw_sprite gpuLit0 memSpr 0 1 0 0).bind
      (fun r => Gpu.draw_sprite r.1 memSpr 0 1 0 0)).map Prod.snd = some false ∧
    (Gpu.draw_sprite gpuLit0 memSpr 0 1 0 0).map Prod.snd = some true := by
  constructor <;> decide

end Chip8
